import Mathlib

/-!
# Verification of the Probuild ERP hierarchical sequence allocator and UI helpers

This file embeds, in Lean 4, the parts of the Probuild-ERP repository that its
specification talks about:

* the hierarchical sequence allocator for Lead / Quote / Job / Invoice numbers
  (`PVC-XXX`, `PVC-XXX-Q#`, `PVC-XXX-JOB`, `PVC-XXX-INV`).  The allocator itself
  (`createLead` / `createQuote` / `createJob` in `server/storage.ts`) is not part
  of the provided sources — only the repository README documents it — so those
  operations are modelled from the specification text, as marked on each
  definition;
* `generateProbuildId` from `server/servicem8.ts` (present in the sources);
* `hasRouteAccess` from `client/src/lib/permissions.ts` (present in the sources);
* `handleStatusToggle` from the Kanban column settings page (present in the
  sources).

Identifier strings are modelled as Lean `String`s; all definitions are
executable so that concrete identifier computations reduce by `rfl` / `decide`.
-/

/-! ## Decimal digits: parsing and formatting

The specification's shared numeric parsing rule: extract the longest trailing
run of decimal digits; if absent, the identifier does not match.
-/

/-- Numeric value of a decimal digit character (`'0'` ↦ 0, …, `'9'` ↦ 9). -/
def digitVal (c : Char) : Nat := c.toNat - 48

/-- Value of a most-significant-digit-first list of decimal digit characters. -/
def digitsToNat (ds : List Char) : Nat :=
  ds.foldl (fun acc c => acc * 10 + digitVal c) 0

/-- Value of a least-significant-digit-first list of decimal digit characters. -/
def valLSD : List Char → Nat
  | [] => 0
  | c :: cs => digitVal c + 10 * valLSD cs

/-- The longest trailing run of decimal digit characters of a character list. -/
def trailingDigits (s : List Char) : List Char :=
  (s.reverse.takeWhile Char.isDigit).reverse

/-- Modelled from the spec: the shared numeric parsing rule — extract the
longest trailing run of decimal digits; if absent, treat the identifier as
non-matching (`none`) rather than failing. -/
def parseTrailingNatL (s : List Char) : Option Nat :=
  let ds := trailingDigits s
  if ds.isEmpty then none else some (digitsToNat ds)

/-- `parseTrailingNatL` on a `String`'s character data. -/
def parseTrailingNat (s : String) : Option Nat :=
  parseTrailingNatL s.data

/-- Least-significant-first decimal digit characters of `n`, with explicit fuel
so that the recursion is structural and reduces in the kernel. -/
def digitsRevAux : Nat → Nat → List Char
  | 0, _ => []
  | fuel + 1, n =>
    if n = 0 then []
    else Char.ofNat (n % 10 + 48) :: digitsRevAux fuel (n / 10)

/-- Decimal digit characters of `n`, most significant first (`0` ↦ `['0']`). -/
def natDigits (n : Nat) : List Char :=
  if n = 0 then ['0'] else (digitsRevAux n n).reverse

/-- Zero-pad a digit list on the left to at least three characters. -/
def padTo3 (ds : List Char) : List Char :=
  List.replicate (3 - ds.length) '0' ++ ds

/-- Modelled from the spec: format a Lead number — zero-pad the suffix to at
least 3 digits (full width beyond 999) and prepend the `PVC-` prefix. -/
def formatLeadNumber (n : Nat) : String :=
  ⟨['P', 'V', 'C', '-'] ++ padTo3 (natDigits n)⟩

/-! ## The Lead-number allocator (modelled from the spec) -/

/-- The maximum parsed numeric suffix over a list of identifiers, `0` when none
parses. -/
def maxSuffix (existing : List String) : Nat :=
  (existing.filterMap parseTrailingNat).foldl max 0

/-- Modelled from the spec: `allocateLeadNumber` — parse the numeric suffix out
of every existing `leadNumber` (ignoring malformed/foreign values), take the
maximum, add 1, zero-pad to at least 3 digits, prepend `PVC-`.  The concrete
implementation (`createLead` in `server/storage.ts`) is absent from the
provided sources; the README documents the same SQL-`MAX`-based algorithm. -/
def allocateLeadNumber (existing : List String) : String :=
  formatLeadNumber (maxSuffix existing + 1)

/-- Modelled from the spec: creating a Lead appends the freshly allocated
number to the store of existing Lead numbers. -/
def createLeadStore (st : List String) : List String :=
  st ++ [allocateLeadNumber st]

/-- The store of Lead numbers after `n` successive Lead creations starting
from the empty store. -/
def iterCreate : Nat → List String
  | 0 => []
  | n + 1 => createLeadStore (iterCreate n)

example : allocateLeadNumber [] = "PVC-001" := by decide
example : allocateLeadNumber ["PVC-001", "PVC-003"] = "PVC-004" := by decide
example : allocateLeadNumber ["PVC-998", "PVC-999", "PVC-1000"] = "PVC-1001" := by decide
example : iterCreate 3 = ["PVC-001", "PVC-002", "PVC-003"] := by decide
example : parseTrailingNat "not-a-number" = none := by decide

/-! ## Round-trip lemmas: parsing a formatted number recovers its value -/

theorem digit_char_spec : ∀ d : Nat, d < 10 →
    digitVal (Char.ofNat (d + 48)) = d ∧ (Char.ofNat (d + 48)).isDigit = true := by
  decide

theorem mem_digitsRevAux_isDigit :
    ∀ (fuel n : Nat), ∀ c ∈ digitsRevAux fuel n, c.isDigit = true := by
  intro fuel
  induction fuel with
  | zero => intro n c hc; simp [digitsRevAux] at hc
  | succ f ih =>
    intro n c hc
    by_cases h0 : n = 0
    · simp [digitsRevAux, h0] at hc
    · simp only [digitsRevAux, if_neg h0, List.mem_cons] at hc
      rcases hc with rfl | hc
      · exact (digit_char_spec (n % 10) (Nat.mod_lt _ (by omega))).2
      · exact ih _ c hc

theorem mem_natDigits_isDigit (n : Nat) : ∀ c ∈ natDigits n, c.isDigit = true := by
  intro c hc
  by_cases h0 : n = 0
  · simp [natDigits, h0] at hc
    subst hc; decide
  · simp only [natDigits, if_neg h0, List.mem_reverse] at hc
    exact mem_digitsRevAux_isDigit n n c hc

theorem digitsToNat_reverse (l : List Char) : digitsToNat l.reverse = valLSD l := by
  induction l with
  | nil => rfl
  | cons c cs ih =>
    rw [List.reverse_cons]
    unfold digitsToNat at ih ⊢
    rw [List.foldl_append]
    simp only [List.foldl]
    rw [ih]
    show valLSD cs * 10 + digitVal c = digitVal c + 10 * valLSD cs
    ring

theorem valLSD_digitsRevAux : ∀ (fuel n : Nat), n ≤ fuel →
    valLSD (digitsRevAux fuel n) = n := by
  intro fuel
  induction fuel with
  | zero => intro n hn; interval_cases n; rfl
  | succ f ih =>
    intro n hn
    by_cases h0 : n = 0
    · simp [digitsRevAux, h0, valLSD]
    · have hlt : n % 10 < 10 := Nat.mod_lt _ (by omega)
      have hdiv : n / 10 ≤ f := by
        have : n / 10 < n := Nat.div_lt_self (by omega) (by omega)
        omega
      simp only [digitsRevAux, if_neg h0, valLSD]
      rw [(digit_char_spec (n % 10) hlt).1, ih _ hdiv]
      omega

theorem digitsToNat_natDigits (n : Nat) : digitsToNat (natDigits n) = n := by
  by_cases h0 : n = 0
  · subst h0; decide
  · simp only [natDigits, if_neg h0]
    rw [digitsToNat_reverse, valLSD_digitsRevAux n n (le_refl n)]

theorem natDigits_ne_nil (n : Nat) : natDigits n ≠ [] := by
  by_cases h0 : n = 0
  · simp [natDigits, h0]
  · simp only [natDigits, if_neg h0, ne_eq, List.reverse_eq_nil_iff]
    cases fuel_eq : n with
    | zero => omega
    | succ m =>
      simp [digitsRevAux, h0]

theorem digitsToNat_padTo3 (ds : List Char) : digitsToNat (padTo3 ds) = digitsToNat ds := by
  unfold padTo3 digitsToNat
  rw [List.foldl_append]
  have hzeros : ∀ k : Nat, List.foldl (fun acc c => acc * 10 + digitVal c) 0
      (List.replicate k '0') = 0 := by
    intro k
    induction k with
    | zero => rfl
    | succ m ih => simpa [List.replicate_succ, List.foldl] using ih
  rw [hzeros]

theorem mem_padTo3_isDigit (ds : List Char) (h : ∀ c ∈ ds, c.isDigit = true) :
    ∀ c ∈ padTo3 ds, c.isDigit = true := by
  intro c hc
  rcases List.mem_append.mp hc with hc | hc
  · have := List.eq_of_mem_replicate hc
    subst this; decide
  · exact h c hc

theorem padTo3_ne_nil (ds : List Char) (h : ds ≠ []) : padTo3 ds ≠ [] := by
  unfold padTo3
  intro hcontra
  rcases List.append_eq_nil.mp hcontra with ⟨_, h2⟩
  exact h h2

theorem takeWhile_append_of_all (p : Char → Bool) (xs ys : List Char)
    (h : ∀ x ∈ xs, p x = true) :
    (xs ++ ys).takeWhile p = xs ++ ys.takeWhile p := by
  induction xs with
  | nil => rfl
  | cons x xs ih =>
    have hx : p x = true := h x (List.mem_cons_self x xs)
    simp only [List.cons_append, List.takeWhile_cons_of_pos hx]
    rw [ih (fun a ha => h a (List.mem_cons_of_mem x ha))]

theorem trailingDigits_pvc (ds : List Char) (h : ∀ c ∈ ds, c.isDigit = true) :
    trailingDigits (['P', 'V', 'C', '-'] ++ ds) = ds := by
  unfold trailingDigits
  rw [List.reverse_append]
  rw [takeWhile_append_of_all Char.isDigit ds.reverse _
    (fun c hc => h c (List.mem_reverse.mp hc))]
  have : List.takeWhile Char.isDigit (['P', 'V', 'C', '-'].reverse) = [] := by decide
  rw [this, List.append_nil, List.reverse_reverse]

theorem parseTrailingNat_formatLeadNumber (n : Nat) :
    parseTrailingNat (formatLeadNumber n) = some n := by
  unfold parseTrailingNat formatLeadNumber parseTrailingNatL
  show (let ds := trailingDigits (['P', 'V', 'C', '-'] ++ padTo3 (natDigits n));
    if ds.isEmpty then none else some (digitsToNat ds)) = some n
  rw [trailingDigits_pvc _ (mem_padTo3_isDigit _ (mem_natDigits_isDigit n))]
  have hne : padTo3 (natDigits n) ≠ [] := padTo3_ne_nil _ (natDigits_ne_nil n)
  simp only [List.isEmpty_iff, if_neg hne]
  rw [digitsToNat_padTo3, digitsToNat_natDigits]

/-! ## Maximum-fold lemmas -/

theorem init_le_foldl_max (l : List Nat) (a : Nat) : a ≤ l.foldl max a := by
  induction l generalizing a with
  | nil => exact le_refl a
  | cons x l ih => exact le_trans (le_max_left a x) (ih (max a x))

theorem le_foldl_max_of_mem (l : List Nat) (a x : Nat) (h : x ∈ l) :
    x ≤ l.foldl max a := by
  induction l generalizing a with
  | nil => cases h
  | cons y l ih =>
    rcases List.mem_cons.mp h with rfl | h
    · exact le_trans (le_max_right a x) (init_le_foldl_max l (max a x))
    · exact ih (max a y) h

theorem foldl_max_eq_init_or_mem (l : List Nat) (a : Nat) :
    l.foldl max a = a ∨ l.foldl max a ∈ l := by
  induction l generalizing a with
  | nil => left; rfl
  | cons x l ih =>
    rcases ih (max a x) with h | h
    · rcases le_total a x with hax | hax
      · right
        rw [List.foldl_cons, h, max_eq_right hax]
        exact List.mem_cons_self x l
      · left
        rw [List.foldl_cons, h, max_eq_left hax]
    · right
      exact List.mem_cons_of_mem x h

/-! ## The state of the store after successive Lead creations -/

theorem filterMap_some_comp (f : Nat → Nat) (l : List Nat) :
    l.filterMap (fun x => some (f x)) = l.map f := by
  induction l with
  | nil => rfl
  | cons x l ih => simp [List.filterMap_cons, ih]

theorem foldl_max_range (n : Nat) :
    (((List.range n).map (fun i => i + 1)).foldl max 0) = n := by
  induction n with
  | zero => rfl
  | succ m ih =>
    rw [List.range_succ, List.map_append, List.foldl_append, ih]
    show max m (m + 1) = m + 1
    omega

theorem parsed_map_format (l : List Nat) :
    (l.map (fun i => formatLeadNumber (i + 1))).filterMap parseTrailingNat
      = l.map (fun i => i + 1) := by
  rw [List.filterMap_map]
  have hfun : (parseTrailingNat ∘ fun i => formatLeadNumber (i + 1))
      = fun i : Nat => some (i + 1) := by
    funext i
    exact parseTrailingNat_formatLeadNumber (i + 1)
  rw [hfun, filterMap_some_comp]

theorem iterCreate_eq (n : Nat) :
    iterCreate n = (List.range n).map (fun i => formatLeadNumber (i + 1)) := by
  induction n with
  | zero => rfl
  | succ m ih =>
    show createLeadStore (iterCreate m) = _
    unfold createLeadStore allocateLeadNumber maxSuffix
    rw [ih, parsed_map_format, foldl_max_range, List.range_succ, List.map_append]
    rfl

theorem parsed_iterCreate (n : Nat) :
    (iterCreate n).filterMap parseTrailingNat = (List.range n).map (fun i => i + 1) := by
  rw [iterCreate_eq, parsed_map_format]

/-! ## A lexicographic foil for the allocator -/

/-- Character-code lexicographic order on character lists, executable in the
kernel. -/
def charListLt : List Char → List Char → Bool
  | [], [] => false
  | [], _ :: _ => true
  | _ :: _, [] => false
  | a :: as, b :: bs =>
    if a.toNat < b.toNat then true
    else if b.toNat < a.toNat then false
    else charListLt as bs

/-- Following the spec's words only (the naive algorithm the spec rules out): a
string-maximum variant that takes the lexicographically greatest existing
identifier and increments its parsed suffix.  This definition exists to be
compared with `allocateLeadNumber`; it is not part of the modelled program. -/
def lexMaxAllocateLeadNumber (existing : List String) : String :=
  let m := existing.foldl (fun a b => if charListLt a.data b.data then b else a) ""
  formatLeadNumber ((parseTrailingNat m).getD 0 + 1)

example : lexMaxAllocateLeadNumber ["PVC-998", "PVC-999", "PVC-1000"] = "PVC-1000" := by
  decide

/-! ## Claim theorems for the Lead-number allocator -/

/-- Claim C1: `allocateLeadNumber` takes the maximum parsed numeric suffix over
the existing Lead numbers (malformed identifiers excluded from the maximum
rather than causing an error), adds 1, zero-pads to at least 3 digits and
prepends `PVC-`; on an empty store it returns exactly `PVC-001`; and for any
sequence of `N` successive allocations from the empty store (no deletions) the
parsed suffixes are exactly `1..N` in order. -/
theorem allocateLeadNumber_correct :
    (∀ existing : List String, ∃ m : Nat,
        (∀ s ∈ existing.filterMap parseTrailingNat, s ≤ m) ∧
        (m = 0 ∨ m ∈ existing.filterMap parseTrailingNat) ∧
        allocateLeadNumber existing = formatLeadNumber (m + 1)) ∧
    allocateLeadNumber [] = "PVC-001" ∧
    ∀ N : Nat, (iterCreate N).filterMap parseTrailingNat
        = (List.range N).map (fun i => i + 1) := by
  refine ⟨?_, by decide, parsed_iterCreate⟩
  intro existing
  refine ⟨maxSuffix existing, ?_, ?_, rfl⟩
  · intro s hs
    exact le_foldl_max_of_mem _ 0 s hs
  · exact foldl_max_eq_init_or_mem (existing.filterMap parseTrailingNat) 0

/-- Witness for C1: three allocations from the empty store yield, in order,
the suffixes 1, 2, 3. -/
theorem allocateLeadNumber_correct_witness :
    (iterCreate 3).filterMap parseTrailingNat = [1, 2, 3] := by
  have h := allocateLeadNumber_correct.2.2 3
  have e : (List.range 3).map (fun i => i + 1) = [1, 2, 3] := by decide
  rw [e] at h
  exact h

/-- Claim C2: next-number computation compares suffixes numerically, never
lexicographically, and emits suffixes above 999 at full width: on any store
whose suffixes include 1000 as the maximum — such as the one holding
`PVC-998`, `PVC-999`, `PVC-1000` — the allocator returns `PVC-1001`, which is
not what a lexicographic string maximum would produce. -/
theorem allocateLeadNumber_numeric_not_lex :
    (∀ store : List String,
        1000 ∈ store.filterMap parseTrailingNat →
        (∀ s ∈ store.filterMap parseTrailingNat, s ≤ 1000) →
        allocateLeadNumber store = "PVC-1001") ∧
    allocateLeadNumber ["PVC-998", "PVC-999", "PVC-1000"] = "PVC-1001" ∧
    lexMaxAllocateLeadNumber ["PVC-998", "PVC-999", "PVC-1000"] = "PVC-1000" ∧
    lexMaxAllocateLeadNumber ["PVC-998", "PVC-999", "PVC-1000"]
      ≠ allocateLeadNumber ["PVC-998", "PVC-999", "PVC-1000"] := by
  refine ⟨?_, by decide, by decide, by decide⟩
  intro store hmem hub
  have hge : 1000 ≤ maxSuffix store := le_foldl_max_of_mem _ 0 1000 hmem
  have hle : maxSuffix store ≤ 1000 := by
    rcases foldl_max_eq_init_or_mem (store.filterMap parseTrailingNat) 0 with h | h
    · unfold maxSuffix
      omega
    · exact hub _ h
  have hmax : maxSuffix store = 1000 := le_antisymm hle hge
  show formatLeadNumber (maxSuffix store + 1) = "PVC-1001"
  rw [hmax]
  decide

/-- Witness for C2: the general numeric-maximum statement applied to the
concrete store `[PVC-998, PVC-999, PVC-1000]`. -/
theorem allocateLeadNumber_numeric_not_lex_witness :
    allocateLeadNumber ["PVC-998", "PVC-999", "PVC-1000"] = "PVC-1001" :=
  allocateLeadNumber_numeric_not_lex.1 ["PVC-998", "PVC-999", "PVC-1000"]
    (by decide) (by decide)

/-- Claim C3: the suffix allocated by `allocateLeadNumber` is numerically
strictly greater than every existing parsed suffix, and deleted numbers are
never reused: after creating suffixes 1, 2, 3 and deleting the Lead with
suffix 2, the next allocation yields suffix 4, not 2. -/
theorem allocateLeadNumber_strictly_monotone :
    (∀ store : List String, ∀ s ∈ store.filterMap parseTrailingNat,
        ∃ r : Nat, parseTrailingNat (allocateLeadNumber store) = some r ∧ s < r) ∧
    allocateLeadNumber ((iterCreate 3).filter
        (fun x => parseTrailingNat x != some 2)) = "PVC-004" ∧
    parseTrailingNat (allocateLeadNumber ((iterCreate 3).filter
        (fun x => parseTrailingNat x != some 2))) = some 4 := by
  refine ⟨?_, by decide, by decide⟩
  intro store s hs
  refine ⟨maxSuffix store + 1, parseTrailingNat_formatLeadNumber _, ?_⟩
  have := le_foldl_max_of_mem (store.filterMap parseTrailingNat) 0 s hs
  unfold maxSuffix
  omega

/-- Witness for C3: on the store `[PVC-001, PVC-003]` the existing suffix 3 is
strictly below the freshly allocated suffix. -/
theorem allocateLeadNumber_strictly_monotone_witness :
    ∃ r : Nat, parseTrailingNat (allocateLeadNumber ["PVC-001", "PVC-003"]) = some r
      ∧ 3 < r :=
  allocateLeadNumber_strictly_monotone.1 ["PVC-001", "PVC-003"] 3 (by decide)

/-! ## The Quote-number allocator (modelled from the spec) -/

/-- Modelled from the spec: the allocator's error taxonomy (§7).
`invalidParentReference` — a Quote/Job allocation against a Lead whose number
cannot be parsed; `duplicateNumberCollision` — the bounded retry budget was
exhausted without a unique insert. -/
inductive AllocError where
  | invalidParentReference
  | duplicateNumberCollision
deriving DecidableEq

/-- The parsed sequence numbers of those existing Quote numbers whose prefix
exactly matches `{leadNumber}-Q`, reading the trailing integer after the `Q`. -/
def quoteFamilySuffixes (leadNumber : String) (quotes : List String) : List Nat :=
  quotes.filterMap (fun q =>
    let pre := leadNumber.data ++ ['-', 'Q']
    if pre.isPrefixOf q.data then parseTrailingNatL (q.data.drop pre.length) else none)

/-- Format a Quote number `{leadNumber}-Q{n}` (no zero padding on `n`). -/
def formatQuoteNumber (leadNumber : String) (n : Nat) : String :=
  ⟨leadNumber.data ++ ['-', 'Q'] ++ natDigits n⟩

/-- Modelled from the spec: `allocateQuoteNumber` — if the parent `leadNumber`
has no parseable numeric suffix, fail with `InvalidParentReference`; otherwise
take the maximum trailing integer over the Quote numbers whose prefix exactly
matches `{leadNumber}-Q` (0 when none), add 1 and format `{leadNumber}-Q{n}`.
The concrete implementation (`createQuote` in `server/storage.ts`) is absent
from the provided sources; the README documents the same algorithm. -/
def allocateQuoteNumber (leadNumber : String) (quotes : List String) :
    Except AllocError String :=
  match parseTrailingNat leadNumber with
  | none => Except.error AllocError.invalidParentReference
  | some _ =>
    Except.ok (formatQuoteNumber leadNumber
      ((quoteFamilySuffixes leadNumber quotes).foldl max 0 + 1))

example : allocateQuoteNumber "PVC-005" [] = Except.ok "PVC-005-Q1" := rfl
example : allocateQuoteNumber "PVC-005" ["PVC-005-Q1", "PVC-005-Q3"]
    = Except.ok "PVC-005-Q4" := rfl
example : allocateQuoteNumber "not-a-number" ["PVC-005-Q1"]
    = Except.error AllocError.invalidParentReference := rfl

/-! ## The entity store and the creation transactions (modelled from the spec) -/

/-- Modelled from the spec: the relational table space holding the four entity
kinds' identifier columns — the only state the allocator reads and writes. -/
structure Store where
  leads : List String
  quotes : List String
  jobs : List String
  invoices : List String
deriving DecidableEq

/-- Modelled from the spec: Quote creation — allocate the number and persist
the Quote row in the same transaction; an allocator failure aborts the
transaction, so nothing is persisted. -/
def createQuote (st : Store) (leadNumber : String) : Except AllocError Store :=
  match allocateQuoteNumber leadNumber st.quotes with
  | Except.error e => Except.error e
  | Except.ok q => Except.ok { st with quotes := st.quotes ++ [q] }

/-- The store visible after a `createQuote` call: the new store on success and
the untouched old store when the transaction aborted. -/
def runCreateQuote (st : Store) (leadNumber : String) : Store :=
  match createQuote st leadNumber with
  | Except.error _ => st
  | Except.ok st2 => st2

/-- Claim C4: for a well-formed parent `leadNumber`, `allocateQuoteNumber`
returns `{leadNumber}-Q{n}` where `n` is one plus the maximum trailing integer
among existing Quote numbers whose prefix exactly matches `{leadNumber}-Q`
(0 when no such Quote exists, so the first quote is `Q1`); numbers are never
reissued after deletion — for Lead `PVC-005` with quotes Q1, Q2, Q3, deleting
Q2 and allocating again yields `PVC-005-Q4`. -/
theorem allocateQuoteNumber_correct :
    (∀ (leadNumber : String) (quotes : List String),
        (parseTrailingNat leadNumber).isSome = true →
        ∃ m : Nat,
          (∀ k ∈ quoteFamilySuffixes leadNumber quotes, k ≤ m) ∧
          (m = 0 ∨ m ∈ quoteFamilySuffixes leadNumber quotes) ∧
          allocateQuoteNumber leadNumber quotes
            = Except.ok (formatQuoteNumber leadNumber (m + 1))) ∧
    allocateQuoteNumber "PVC-005" [] = Except.ok "PVC-005-Q1" ∧
    allocateQuoteNumber "PVC-005" ["PVC-005-Q1", "PVC-005-Q3"]
      = Except.ok "PVC-005-Q4" := by
  refine ⟨?_, rfl, rfl⟩
  intro leadNumber quotes hsome
  refine ⟨(quoteFamilySuffixes leadNumber quotes).foldl max 0, ?_, ?_, ?_⟩
  · intro k hk
    exact le_foldl_max_of_mem _ 0 k hk
  · exact foldl_max_eq_init_or_mem (quoteFamilySuffixes leadNumber quotes) 0
  · unfold allocateQuoteNumber
    rcases hparse : parseTrailingNat leadNumber with _ | v
    · rw [hparse] at hsome
      simp [Option.isSome] at hsome
    · rfl

/-- Witness for C4: the general statement applied to Lead `PVC-005` with the
quote family `{Q1, Q3}` left after deleting Q2. -/
theorem allocateQuoteNumber_correct_witness :
    ∃ m : Nat,
      (∀ k ∈ quoteFamilySuffixes "PVC-005" ["PVC-005-Q1", "PVC-005-Q3"], k ≤ m) ∧
      (m = 0 ∨ m ∈ quoteFamilySuffixes "PVC-005" ["PVC-005-Q1", "PVC-005-Q3"]) ∧
      allocateQuoteNumber "PVC-005" ["PVC-005-Q1", "PVC-005-Q3"]
        = Except.ok (formatQuoteNumber "PVC-005" (m + 1)) :=
  allocateQuoteNumber_correct.1 "PVC-005" ["PVC-005-Q1", "PVC-005-Q3"] (by decide)

/-- Claim C6: calling `allocateQuoteNumber` with a parent `leadNumber` having
no parseable numeric suffix (for example `"not-a-number"`) fails with
`InvalidParentReference`, the enclosing creation aborts, and the store is
unchanged on this error path. -/
theorem allocateQuoteNumber_malformed_parent :
    ∀ leadNumber : String, parseTrailingNat leadNumber = none →
      (∀ quotes : List String,
        allocateQuoteNumber leadNumber quotes
          = Except.error AllocError.invalidParentReference) ∧
      (∀ st : Store,
        createQuote st leadNumber
          = Except.error AllocError.invalidParentReference ∧
        runCreateQuote st leadNumber = st) := by
  intro leadNumber hparse
  have halloc : ∀ quotes : List String,
      allocateQuoteNumber leadNumber quotes
        = Except.error AllocError.invalidParentReference := by
    intro quotes
    unfold allocateQuoteNumber
    rw [hparse]
  refine ⟨halloc, ?_⟩
  intro st
  have hcq : createQuote st leadNumber
      = Except.error AllocError.invalidParentReference := by
    unfold createQuote
    rw [halloc st.quotes]
  refine ⟨hcq, ?_⟩
  unfold runCreateQuote
  rw [hcq]

/-- Witness for C6: the concrete malformed parent `"not-a-number"` against a
concrete non-empty store. -/
theorem allocateQuoteNumber_malformed_parent_witness :
    createQuote ⟨["PVC-001"], ["PVC-001-Q1"], [], []⟩ "not-a-number"
      = Except.error AllocError.invalidParentReference ∧
    runCreateQuote ⟨["PVC-001"], ["PVC-001-Q1"], [], []⟩ "not-a-number"
      = ⟨["PVC-001"], ["PVC-001-Q1"], [], []⟩ :=
  (allocateQuoteNumber_malformed_parent "not-a-number" (by decide)).2
    ⟨["PVC-001"], ["PVC-001-Q1"], [], []⟩

/-! ## Bounded collision retry (modelled from the spec, §5 and §7) -/

/-- Modelled from the spec: the optimistic allocate-and-insert cycle of §5.
`collides k` tells whether the insert attempted on retry round `k` hits a
uniqueness-constraint violation (the behaviour of the concurrent environment);
the last argument is the remaining retry budget.  When the budget reaches 0 the
allocator stops retrying and surfaces `DuplicateNumberCollision`. -/
def retryAllocateLead (store : List String) (collides : Nat → Bool) :
    Nat → Except AllocError String
  | 0 => Except.error AllocError.duplicateNumberCollision
  | budget + 1 =>
    if collides budget then retryAllocateLead store collides budget
    else Except.ok (allocateLeadNumber store)

/-- Modelled from the spec: Lead creation through the bounded retry cycle; an
allocator failure aborts the creation transaction, so no row is persisted. -/
def createLeadWithRetry (st : Store) (collides : Nat → Bool) (budget : Nat) :
    Except AllocError Store :=
  match retryAllocateLead st.leads collides budget with
  | Except.error e => Except.error e
  | Except.ok n => Except.ok { st with leads := st.leads ++ [n] }

/-- The store visible after a `createLeadWithRetry` call: the new store on
success and the untouched old store when the transaction aborted. -/
def runCreateLeadWithRetry (st : Store) (collides : Nat → Bool) (budget : Nat) :
    Store :=
  match createLeadWithRetry st collides budget with
  | Except.error _ => st
  | Except.ok st2 => st2

/-- Claim C8: when every insert attempt within the bounded retry budget
collides, the allocator raises `DuplicateNumberCollision` as a hard failure —
it does not retry beyond the bound, returns no degraded result, and the
enclosing creation transaction aborts with nothing persisted. -/
theorem retryAllocateLead_budget_exhausted :
    ∀ (store : List String) (collides : Nat → Bool) (budget : Nat),
      (∀ k, k < budget → collides k = true) →
      retryAllocateLead store collides budget
        = Except.error AllocError.duplicateNumberCollision ∧
      ∀ st : Store, st.leads = store →
        createLeadWithRetry st collides budget
          = Except.error AllocError.duplicateNumberCollision ∧
        runCreateLeadWithRetry st collides budget = st := by
  intro store collides budget hall
  have herr : retryAllocateLead store collides budget
      = Except.error AllocError.duplicateNumberCollision := by
    induction budget with
    | zero => rfl
    | succ b ih =>
      unfold retryAllocateLead
      rw [hall b (Nat.lt_succ_self b), if_pos rfl]
      exact ih (fun k hk => hall k (Nat.lt_succ_of_lt hk))
  refine ⟨herr, ?_⟩
  intro st hst
  have hcreate : createLeadWithRetry st collides budget
      = Except.error AllocError.duplicateNumberCollision := by
    unfold createLeadWithRetry
    rw [hst, herr]
  refine ⟨hcreate, ?_⟩
  unfold runCreateLeadWithRetry
  rw [hcreate]

/-- Witness for C8: a budget of 3 with every attempt colliding, against a
concrete store. -/
theorem retryAllocateLead_budget_exhausted_witness :
    retryAllocateLead ["PVC-001"] (fun _ => true) 3
      = Except.error AllocError.duplicateNumberCollision ∧
    runCreateLeadWithRetry ⟨["PVC-001"], [], [], []⟩ (fun _ => true) 3
      = ⟨["PVC-001"], [], [], []⟩ := by
  have h := retryAllocateLead_budget_exhausted ["PVC-001"] (fun _ => true) 3
    (fun k _ => rfl)
  exact ⟨h.1, (h.2 ⟨["PVC-001"], [], [], []⟩ rfl).2⟩

/-! ## Job and Invoice number derivation -/

/-- Modelled from the spec: `deriveJobAndInvoiceNumbers` — a pure function of
the parent Lead number alone, suffixing `-JOB` and `-INV`; no query against
existing Job or Invoice numbers is involved (the function takes no store
argument).  The concrete implementation (`createJob` in `server/storage.ts`)
is absent from the provided sources; the README documents the same rule. -/
def deriveJobAndInvoiceNumbers (leadNumber : String) : String × String :=
  (leadNumber ++ "-JOB", leadNumber ++ "-INV")

/-- The `status` union of a ServiceM8 job, from `server/servicem8.ts`. -/
inductive SM8Status where
  | quoteStatus
  | workOrder
  | completed
  | unsuccessful
deriving DecidableEq

/-- A ServiceM8 job record, restricted to the fields `generateProbuildId`
reads, from `server/servicem8.ts`. -/
structure SM8Job where
  generated_job_id : String
  status : SM8Status

/-- JavaScript's `padStart(3, "0")` on a string. -/
def padStart3Zeros (s : String) : String :=
  ⟨List.replicate (3 - s.data.length) '0' ++ s.data⟩

/-- `generateProbuildId` from `server/servicem8.ts`: pad the ServiceM8 job id
to 3 digits; `Quote` and `Unsuccessful` jobs map to `PVC-{id}` and
`Work Order` and `Completed` jobs map to `PVC-{id}-JOB`. -/
def generateProbuildId (job : SM8Job) : String :=
  let jobNum := padStart3Zeros job.generated_job_id
  match job.status with
  | SM8Status.quoteStatus => "PVC-" ++ jobNum
  | SM8Status.unsuccessful => "PVC-" ++ jobNum
  | SM8Status.workOrder => "PVC-" ++ jobNum ++ "-JOB"
  | SM8Status.completed => "PVC-" ++ jobNum ++ "-JOB"

/-- Claim C5: `deriveJobAndInvoiceNumbers` is a pure function of its argument
alone, returning exactly `{leadNumber}-JOB` and `{leadNumber}-INV` with no
query against existing Job or Invoice numbers; for `PVC-007` it yields
`PVC-007-JOB` and `PVC-007-INV`.  Moreover the job identifiers that
`generateProbuildId` (the ServiceM8 import path present in the sources)
produces for `Work Order`/`Completed` jobs agree with the derived
`jobNumber`. -/
theorem deriveJobAndInvoiceNumbers_correct :
    (∀ leadNumber : String,
        deriveJobAndInvoiceNumbers leadNumber
          = (leadNumber ++ "-JOB", leadNumber ++ "-INV")) ∧
    deriveJobAndInvoiceNumbers "PVC-007" = ("PVC-007-JOB", "PVC-007-INV") ∧
    (∀ job : SM8Job,
        job.status = SM8Status.workOrder ∨ job.status = SM8Status.completed →
        generateProbuildId job
          = (deriveJobAndInvoiceNumbers
              ("PVC-" ++ padStart3Zeros job.generated_job_id)).1) := by
  refine ⟨fun _ => rfl, rfl, ?_⟩
  intro job hstatus
  unfold generateProbuildId deriveJobAndInvoiceNumbers
  rcases hstatus with h | h <;> rw [h]

/-- Witness for C5: a concrete `Work Order` ServiceM8 job with id `"45"` gets
the Probuild id `PVC-045-JOB`, the derived job number of Lead `PVC-045`. -/
theorem deriveJobAndInvoiceNumbers_correct_witness :
    generateProbuildId ⟨"45", SM8Status.workOrder⟩
      = (deriveJobAndInvoiceNumbers ("PVC-" ++ padStart3Zeros "45")).1 ∧
    generateProbuildId ⟨"45", SM8Status.workOrder⟩ = "PVC-045-JOB" :=
  ⟨deriveJobAndInvoiceNumbers_correct.2.2 ⟨"45", SM8Status.workOrder⟩ (Or.inl rfl),
   rfl⟩

/-! ## Role-based route permissions, from `client/src/lib/permissions.ts` -/

/-- The seven user roles of `client/src/lib/permissions.ts`. -/
inductive UserRole where
  | admin
  | sales
  | scheduler
  | production_manager
  | warehouse
  | installer
  | trade_client
deriving DecidableEq

/-- A role's permissions: route patterns and sidebar groups. -/
structure RolePermissions where
  routes : List String
  sidebarGroups : List String

/-- The `rolePermissions` table of `client/src/lib/permissions.ts`,
transcribed verbatim. -/
def rolePermissions : UserRole → RolePermissions
  | UserRole.admin =>
    { routes := ["*"],
      sidebarGroups := ["main", "operations", "finance", "analytics",
        "live-docs", "installer", "trade", "organisation"] }
  | UserRole.sales =>
    { routes := ["/", "/leads", "/leads/*", "/quotes", "/quotes/*", "/clients",
        "/clients/*", "/messages", "/messages/*", "/organisation/*"],
      sidebarGroups := ["main-sales", "finance-messages", "organisation"] }
  | UserRole.scheduler =>
    { routes := ["/", "/jobs", "/jobs/*", "/schedule", "/schedule/*",
        "/production", "/clients", "/clients/*", "/messages", "/messages/*",
        "/organisation/*"],
      sidebarGroups := ["main-scheduler", "operations-scheduler",
        "finance-messages", "organisation"] }
  | UserRole.production_manager =>
    { routes := ["/", "/jobs", "/jobs/*", "/production", "/production/*",
        "/schedule", "/schedule/*", "/inventory", "/inventory/*", "/clients",
        "/messages", "/messages/*", "/organisation/*"],
      sidebarGroups := ["main-production", "operations", "finance-messages",
        "organisation"] }
  | UserRole.warehouse =>
    { routes := ["/", "/production", "/production/*", "/inventory",
        "/inventory/*", "/jobs", "/organisation/*"],
      sidebarGroups := ["main-warehouse", "operations-warehouse",
        "organisation"] }
  | UserRole.installer =>
    { routes := ["/", "/installer", "/installer/*", "/jobs", "/jobs/*",
        "/schedule", "/organisation/*"],
      sidebarGroups := ["main-installer", "installer", "organisation"] }
  | UserRole.trade_client =>
    { routes := ["/trade", "/trade/*"],
      sidebarGroups := ["trade"] }

/-- `p` is a prefix of `s`, on the strings' character data (the semantics of
JavaScript's `String.startsWith` for these ASCII route strings). -/
def strStartsWith (s p : String) : Bool :=
  p.data.isPrefixOf s.data

/-- `p` is a suffix of `s`, on the strings' character data (the semantics of
JavaScript's `String.endsWith` for these ASCII route strings). -/
def strEndsWith (s p : String) : Bool :=
  p.data.isSuffixOf s.data

/-- Drop the last `n` characters of `s` (JavaScript's `slice(0, -n)` for a
string of length at least `n`). -/
def strDropRight (s : String) (n : Nat) : String :=
  ⟨s.data.take (s.data.length - n)⟩

/-- `hasRouteAccess` from `client/src/lib/permissions.ts`: the role table is
total, `"*"` grants everything, an exact pattern grants its own route, and a
pattern ending in `/*` grants every route that starts with the pattern minus
the trailing `/*`.  (The TypeScript `if (!permissions) return false` guard is
unreachable because the table has an entry for every role.) -/
def hasRouteAccess (role : UserRole) (route : String) : Bool :=
  let permissions := rolePermissions role
  if permissions.routes.contains "*" then true
  else
    permissions.routes.any (fun allowedRoute =>
      if allowedRoute == route then true
      else if strEndsWith allowedRoute "/*" then
        strStartsWith route (strDropRight allowedRoute 2)
      else false)

example : hasRouteAccess UserRole.sales "/leads/42" = true := by decide
example : hasRouteAccess UserRole.sales "/leadsomething" = true := by decide
example : hasRouteAccess UserRole.sales "/jobs" = false := by decide
example : hasRouteAccess UserRole.admin "/anything/at/all" = true := by decide

/-- Claim C9 (implicit): `hasRouteAccess` grants by string prefix, not by path
segment.  For every role whose permission list contains a pattern ending in
`/*`, every route string that merely starts with the pattern minus the
trailing `/*` is granted — so the sales pattern `/leads/*` also grants
`/leadsomething` — and the admin role, whose route list is `["*"]`, is granted
every route string whatsoever. -/
theorem hasRouteAccess_prefix_grant :
    (∀ (role : UserRole) (pat route : String),
        pat ∈ (rolePermissions role).routes →
        strEndsWith pat "/*" = true →
        strStartsWith route (strDropRight pat 2) = true →
        hasRouteAccess role route = true) ∧
    hasRouteAccess UserRole.sales "/leadsomething" = true ∧
    (∀ route : String, hasRouteAccess UserRole.admin route = true) := by
  refine ⟨?_, by decide, fun _ => rfl⟩
  intro role pat route hmem hends hstarts
  unfold hasRouteAccess
  by_cases hstar : (rolePermissions role).routes.contains "*" = true
  · rw [if_pos hstar]
  · rw [if_neg hstar]
    apply List.any_eq_true.mpr
    refine ⟨pat, hmem, ?_⟩
    by_cases heq : (pat == route) = true
    · rw [if_pos heq]
    · rw [if_neg heq, if_pos hends]
      exact hstarts

/-- Witness for C9: the sales pattern `/leads/*` grants the route
`/leadsomething`, which starts with `/leads` but is not under the `/leads`
path segment. -/
theorem hasRouteAccess_prefix_grant_witness :
    hasRouteAccess UserRole.sales "/leadsomething" = true :=
  hasRouteAccess_prefix_grant.1 UserRole.sales "/leads/*" "/leadsomething"
    (by decide) (by decide) (by decide)

/-! ## Kanban column settings: the status toggle, from
`client/src/pages/KanbanColumnSettings.tsx` -/

/-- The Kanban column dialog's form state. -/
structure ColumnFormData where
  title : String
  statuses : List String
  defaultStatus : String
  color : String
  isActive : Bool
deriving DecidableEq

/-- `handleStatusToggle` from `KanbanColumnSettings.tsx`: toggling `statusKey`
removes it from `statuses` when present and appends it otherwise; the default
status is kept when it is still among the selected statuses and otherwise
reset to the first selected status (`newStatuses[0] || ""`, which is `""` when
the list is empty). -/
def handleStatusToggle (prev : ColumnFormData) (statusKey : String) :
    ColumnFormData :=
  let newStatuses :=
    if prev.statuses.contains statusKey then
      prev.statuses.filter (fun s => s != statusKey)
    else
      prev.statuses ++ [statusKey]
  let newDefaultStatus :=
    if newStatuses.contains prev.defaultStatus then prev.defaultStatus
    else newStatuses.headD ""
  { prev with statuses := newStatuses, defaultStatus := newDefaultStatus }

example :
    handleStatusToggle ⟨"Col", ["a", "b"], "b", "bg", true⟩ "b"
      = ⟨"Col", ["a"], "a", "bg", true⟩ := by decide
example :
    handleStatusToggle ⟨"Col", ["a"], "a", "bg", true⟩ "a"
      = ⟨"Col", [], "", "bg", true⟩ := by decide
example :
    handleStatusToggle ⟨"Col", ["a"], "a", "bg", true⟩ "b"
      = ⟨"Col", ["a", "b"], "a", "bg", true⟩ := by decide

/-- Claim C10 (implicit): after any `handleStatusToggle` call the default
status stays consistent with the selected statuses — when the resulting list
is non-empty the default status is one of its elements (unchanged when still
present, otherwise the first element), and when the resulting list is empty
the default status is the empty string. -/
theorem handleStatusToggle_default_consistent :
    ∀ (prev : ColumnFormData) (statusKey : String),
      ((handleStatusToggle prev statusKey).statuses ≠ [] →
        (handleStatusToggle prev statusKey).defaultStatus
          ∈ (handleStatusToggle prev statusKey).statuses) ∧
      (prev.defaultStatus ∈ (handleStatusToggle prev statusKey).statuses →
        (handleStatusToggle prev statusKey).defaultStatus = prev.defaultStatus) ∧
      (prev.defaultStatus ∉ (handleStatusToggle prev statusKey).statuses →
        (handleStatusToggle prev statusKey).defaultStatus
          = (handleStatusToggle prev statusKey).statuses.headD "") ∧
      ((handleStatusToggle prev statusKey).statuses = [] →
        (handleStatusToggle prev statusKey).defaultStatus = "") := by
  intro prev statusKey
  unfold handleStatusToggle
  set L := if prev.statuses.contains statusKey then
      prev.statuses.filter (fun s => s != statusKey)
    else prev.statuses ++ [statusKey] with hL
  simp only
  by_cases hc : L.contains prev.defaultStatus = true
  · have hmem : prev.defaultStatus ∈ L := List.elem_iff.mp hc
    rw [if_pos hc]
    refine ⟨fun _ => hmem, fun _ => rfl, fun habs => absurd hmem habs, ?_⟩
    intro hnil
    rw [hnil] at hmem
    cases hmem
  · have hnmem : prev.defaultStatus ∉ L := by
      intro hm
      have h2 : L.elem prev.defaultStatus = false := by
        rcases Bool.eq_false_or_eq_true (L.elem prev.defaultStatus) with h | h
        · exact absurd h hc
        · exact h
      rw [List.elem_iff.mpr hm] at h2
      cases h2
    rw [if_neg hc]
    refine ⟨?_, fun hm => absurd hm hnmem, fun _ => rfl, ?_⟩
    · intro hne
      cases hL2 : L with
      | nil => exact absurd hL2 hne
      | cons a t =>
        exact List.mem_cons_self a t
    · intro hnil
      rw [hnil]
      rfl

/-- Witness for C10: toggling `"a"` off the column `{statuses := [a, b],
defaultStatus := a}` leaves `[b]` selected with the default reset to its
first element. -/
theorem handleStatusToggle_default_consistent_witness :
    (handleStatusToggle ⟨"Col", ["a", "b"], "a", "bg", true⟩ "a").defaultStatus
      ∈ (handleStatusToggle ⟨"Col", ["a", "b"], "a", "bg", true⟩ "a").statuses :=
  (handleStatusToggle_default_consistent ⟨"Col", ["a", "b"], "a", "bg", true⟩
    "a").1 (by decide)
